import Mathlib

/-!
Shallow embedding of the quiz session state machine of `src/main.py`
(Telegram quiz bot).  The per-chat mutable dictionary `context.chat_data`
is modelled as an optional record (`none` = the dictionary is empty, as
after `chat_data.clear()`), and each Telegram handler becomes a pure
transition function `state → state × outputs`.

Modelling notes, justified by the source:
* Time-based anti-spam wrappers (`antispam`, `_debounce_answer`,
  `_last_start_at`, `LOCK_TTL`) are real-time transport concerns and are
  outside the state machine; they never modify the quiz fields.
* Message sending/deleting is an external side effect; the only transport
  bookkeeping kept is what the handlers branch on: `last_message_id`,
  `last_has_kb` and `_consumed_msg_id` (the stale-callback and
  per-message consume guards).  `_sending_question` is always `False` at
  handler entry under sequential delivery and is therefore omitted.
* Fresh Telegram message ids for newly sent questions are supplied by the
  events (`freshId`), since the transport allocates them.
* Render-only data (prompts, option/explanation texts, images, progress
  bar) is collapsed into the `Out` action type; a question keeps only the
  fields the logic reads: `question_number` (image lookup key, unused by
  the logic) and `answer_index`.
* A Python statement that raises (`KeyError`/`IndexError` on
  `chat_data["exam_questions"]` or an out-of-range list index) aborts the
  handler before any further mutation; the global error handler swallows
  the exception, so it is modelled as returning the state unchanged at
  that point.
* The free-text fuzzy matcher (`difflib.get_close_matches`) resolves user
  text to an option index 0..3 or fails; the resolved result is carried
  on the text event (`Option Nat`), matching the adapter boundary.
-/

namespace QuizBot

/-- One entry of the external question bank (`questions.json`): only the
fields the state machine reads.  `options` always has length 4 in the
bank; answers are compared against `answer_index`. -/
structure Question where
  question_number : Nat
  answer_index : Nat
deriving DecidableEq, Repr

/-- The loaded `QUESTIONS` list. -/
abbrev Bank := List Question

/-- Language mode chosen via the `lang_*` callbacks. -/
inductive LangMode where
  | en
  | bilingual
deriving DecidableEq, Repr

/-- Quiz mode chosen via the `mode_*` callbacks. -/
inductive QuizMode where
  | learning
  | exam
deriving DecidableEq, Repr

/-- The per-chat state bag `context.chat_data`.  Fields that the code
reads with a default (`chat_data.get(k, d)`) and never tests for presence
are stored directly with that default; fields whose presence is branched
on (`mode`, `exam_questions`, `lang_mode`) are `Option`s. -/
structure ChatData where
  lang_mode : Option LangMode := none
  mode : Option QuizMode := none
  current_index : Nat := 0
  score : Nat := 0
  wrong_count : Nat := 0
  paused : Bool := false
  wrong_steps : List Nat := []
  used_questions : List Nat := []
  exam_questions : Option (List Nat) := none
  resume_question : Nat := 0
  awaiting_next : Bool := false
  last_message_id : Option Nat := none
  last_has_kb : Bool := false
  consumed_msg_id : Option Nat := none
deriving DecidableEq, Repr

/-- `none` models an empty `chat_data` dictionary (after `clear()`). -/
abbrev Chat := Option ChatData

/-- Render/side-effect actions requested from the transport. -/
inductive Out where
  | langPrompt
  | modePrompt
  | modeDescr
  | question (qIdx position total : Nat)
  | feedback (isCorrect : Bool)
  | examSummary (score total : Nat) (passed : Bool)
  | learnSummary (correct wrong : Nat)
  | failedFast (wrongs : Nat)
  | insufficientQuestions
  | examDataMissing
  | invalidSelection
  | unrecognizedAnswer
  | jumpOnlyLearning
  | jumpOutOfRange (total : Nat)
  | notActive
  | pausedMsg
  | answeredToast
deriving DecidableEq, Repr

/-- Data of a `NEXT|CONTINUE|RESTART` callback (`next_handler`). -/
inductive NextData where
  | NEXT
  | CONTINUE
  | RESTART
deriving DecidableEq, Repr

/-- Inbound events.  `rng` stands for the `random` module consulted by
`random.sample`; `freshId` is the Telegram message id the transport would
allocate for the next sent message; `msgId` is the id the callback refers
to. -/
inductive Ev where
  | start
  | mainMenu
  | chooseLang (l : LangMode)
  | chooseMode (m : QuizMode) (rng : Nat → Nat) (freshId : Nat)
  | btnAnswer (msgId : Nat) (data : String) (freshId : Nat)
  | textJump (n : Nat) (freshId : Nat)
  | textAnswer (sel : Option Nat) (freshId : Nat)
  | nextBtn (d : NextData) (freshId : Nat)
  | pause
  | resume (freshId : Nat)

/-- `option_map = {"A": 0, "B": 1, "C": 2, "D": 3}`; `.get(letter, -1)`
is modelled by `Option` (the `-1` case is `none`). -/
def option_map : String → Option Nat
  | "A" => some 0
  | "B" => some 1
  | "C" => some 2
  | "D" => some 3
  | _ => none

/-- One selection step of `random.sample`: pick a position of the pool,
return that element and continue on the pool with it removed.  Structural
on the number of draws; on a `Nodup` pool removing by value equals
removing by position, matching `random.sample`. -/
def sampleAux (rng : Nat → Nat) : Nat → Nat → List Nat → List Nat
  | 0, _, _ => []
  | k+1, step, pool =>
    if h : 0 < pool.length then
      let x := pool.get ⟨rng step % pool.length, Nat.mod_lt _ h⟩
      x :: sampleAux rng k (step+1) (pool.erase x)
    else []

/-- `random.sample(range(n), k)`: `k` distinct draws without replacement
from `[0, n)`. -/
def random_sample (rng : Nat → Nat) (n k : Nat) : List Nat :=
  sampleAux rng k 0 (List.range n)

/-- `_is_stale_callback`: the callback does not belong to the last
message with an active keyboard.  On an empty `chat_data` both
`last_message_id` and `last_has_kb` default falsy, so every callback is
stale. -/
def is_stale_callback (s : Chat) (msgId : Nat) : Bool :=
  match s with
  | none => true
  | some c => !(c.last_message_id == some msgId) || !c.last_has_kb

/-- State effect of `_purge_ui_soft` / `_purge_open_question`: if the
last question message still has its inline keyboard, it is deleted and
the markers are reset (the deletion itself is a transport effect). -/
def purge_ui (c : ChatData) : ChatData :=
  if c.last_message_id.isSome && c.last_has_kb then
    { c with last_message_id := none, last_has_kb := false }
  else c

/-- `send_score`: render the exam or learning summary, then
`chat_data.clear()` (in exam mode `passed` is `score >= 25`). -/
def send_score (c : ChatData) : Chat × List Out :=
  match c.mode.getD .learning with
  | .exam =>
    (none, [.examSummary c.score (c.exam_questions.getD []).length (decide (25 ≤ c.score))])
  | .learning =>
    (none, [.learnSummary c.score c.wrong_count])

/-- Python loop `for i in range(start, len(l)): if l[i] not in used: ...`
in `send_question`: position of the first entry of `l` at index
`>= start` that is not in `used`. -/
def first_unused (l used : List Nat) (start : Nat) : Option Nat :=
  (List.range' start (l.length - start)).find? (fun i => !(used.contains (l.getD i 0)))

/-- `send_question`: purge the open question, pick the next question
(exam: first not-yet-used entry of `exam_questions` scanning from
`current_index`, wrapping to the start; learning: the bank entry at
`current_index`), record it, and render it with a fresh keyboard.
Running out of questions falls through to `send_score`. -/
def send_question (bank : Bank) (freshId : Nat) (c0 : ChatData) : Chat × List Out :=
  let c := purge_ui c0
  match c.mode.getD .learning with
  | .exam =>
    let l := c.exam_questions.getD []
    let used := c.used_questions
    if (l.filter (fun q => !(used.contains q))).isEmpty then send_score c
    else
      let hit := match first_unused l used c.current_index with
                 | some i => some i
                 | none => first_unused l used 0
      match hit with
      | none => send_score c
      | some i =>
        let c1 := { c with current_index := i,
                           used_questions := c.used_questions ++ [l.getD i 0],
                           last_message_id := some freshId,
                           last_has_kb := true,
                           consumed_msg_id := none }
        (some c1, [.question (l.getD i 0) c1.used_questions.length l.length])
  | .learning =>
    if bank.length ≤ c.current_index then send_score c
    else
      let c1 := { c with last_message_id := some freshId,
                         last_has_kb := true,
                         consumed_msg_id := none }
      (some c1, [.question c1.current_index (c1.current_index + 1) bank.length])

/-- State effect of the `start` handler (`/start`, the restart button and
the tail of `handle_main_menu`): reset counters and flags, drop any stale
exam state (`used_questions`/`exam_questions` popped), and strip the
keyboard marker of a dangling question. -/
def start_reset (s : Chat) : ChatData :=
  let c := s.getD {}
  let c1 := { c with wrong_count := 0, score := 0, current_index := 0,
                     paused := false, wrong_steps := [],
                     used_questions := [], exam_questions := none }
  if c1.last_message_id.isSome then { c1 with last_has_kb := false } else c1

/-- The `start` handler: reset and show the language picker. -/
def start (s : Chat) : Chat × List Out :=
  (some (start_reset s), [.langPrompt])

/-- `handle_main_menu`: `chat_data.clear()` then `start`. -/
def handle_main_menu (_s : Chat) : Chat × List Out :=
  start none

/-- `handle_language`: store the language, reset `current_index` and
`score` (note: `wrong_count` is not reset) and show the mode menu.  There
is no state guard: the handler runs from any state. -/
def handle_language (l : LangMode) (s : Chat) : Chat × List Out :=
  let c := purge_ui (s.getD {})
  (some { c with lang_mode := some l, current_index := 0, score := 0 }, [.modePrompt])

/-- `handle_mode`: record the mode and reset the counters; in exam mode
additionally reset `used_questions` and, if the bank holds at least 30
questions, draw `random.sample(range(len(QUESTIONS)), 30)` as
`exam_questions`; otherwise report the shortage and stop.  On success the
first question is sent. -/
def handle_mode (bank : Bank) (m : QuizMode) (rng : Nat → Nat) (freshId : Nat)
    (s : Chat) : Chat × List Out :=
  let c := s.getD {}
  let c1 := { c with mode := some m, current_index := 0, score := 0,
                     paused := false, wrong_count := 0, wrong_steps := [] }
  let c2 := purge_ui c1
  match m with
  | .exam =>
    let c3 := { c2 with wrong_count := 0, score := 0, current_index := 0,
                        used_questions := [], wrong_steps := [] }
    if bank.length < 30 then (some c3, [.insufficientQuestions])
    else
      let c4 := { c3 with exam_questions := some (random_sample rng bank.length 30) }
      let r := send_question bank freshId c4
      (r.1, .modeDescr :: r.2)
  | .learning =>
    let r := send_question bank freshId c2
    (r.1, .modeDescr :: r.2)

/-- Scoring step of `answer_handler` (lines 792-797): on a correct
answer increment `score`, otherwise increment `wrong_count` (the
`mode in ("exam", "learning")` guard is always true). -/
def score_answer (c : ChatData) (isCorrect : Bool) : ChatData :=
  if isCorrect then { c with score := c.score + 1 }
  else { c with wrong_count := c.wrong_count + 1 }

/-- Post-answer bookkeeping of the button path (lines 895-944): the
result text replaces the question message (same id, keyboard gone), a
wrong answer records the 1-based position in `wrong_steps`, and the
cursor auto-advances with `awaiting_next` popped. -/
def finish_answer (c1 : ChatData) (msgId : Nat) (mode : QuizMode) (isCorrect : Bool) :
    ChatData :=
  let c2 := { c1 with last_message_id := some msgId, last_has_kb := false }
  let pos := match mode with
             | .exam => c2.used_questions.length
             | .learning => c2.current_index + 1
  let c3 := if isCorrect then c2
            else { c2 with wrong_steps :=
                     if c2.wrong_steps.contains pos then c2.wrong_steps
                     else pos :: c2.wrong_steps }
  { c3 with current_index := c3.current_index + 1, awaiting_next := false }

/-- Button-callback branch of `answer_handler`.  Guard order as in the
source: stale-callback drop, per-message consume guard (the
`if not chat_data` recovery branch below it is unreachable, since writing
`_consumed_msg_id` makes the dictionary non-empty), missing exam data,
question lookup (may raise), selection validation, scoring, exam
fail-fast at `wrong_count >= 6`, then auto-advance of `current_index` and
the next question or the summary. -/
def answer_button (bank : Bank) (msgId : Nat) (data : String) (freshId : Nat)
    (s : Chat) : Chat × List Out :=
  if is_stale_callback s msgId then (s, [])
  else
    match s with
    | none => (s, [])
    | some c0 =>
      if c0.consumed_msg_id == some msgId then (s, [.answeredToast])
      else
        let c := { c0 with consumed_msg_id := some msgId }
        let mode := c.mode.getD .learning
        if mode == .exam && c.exam_questions.isNone then
          (some c, [.examDataMissing])
        else
          let qIdx? : Option Nat :=
            match mode with
            | .exam =>
              match c.used_questions.getLast? with
              | some q => some q
              | none => (c.exam_questions.getD [])[c.current_index]?
            | .learning => some c.current_index
          match qIdx? with
          | none => (some c, [])
          | some qIdx =>
            let maxQuestions := match mode with
                                | .exam => 30
                                | .learning => bank.length
            match option_map data with
            | none => (some c, [.invalidSelection])
            | some sel =>
              if c.current_index < maxQuestions then
                match bank[qIdx]? with
                | none => (some c, [])
                | some q =>
                  let isCorrect := sel == q.answer_index
                  let c1 := score_answer c isCorrect
                  if mode == .exam && 6 ≤ c1.wrong_count then
                    (none, [.feedback isCorrect, .failedFast c1.wrong_count])
                  else
                    let c4 := finish_answer c1 msgId mode isCorrect
                    let maxQ2 := match mode with
                                 | .exam => (c4.exam_questions.getD []).length
                                 | .learning => bank.length
                    if c4.current_index < maxQ2 then
                      let r := send_question bank freshId c4
                      (r.1, .feedback isCorrect :: r.2)
                    else
                      let r := send_score c4
                      (r.1, .feedback isCorrect :: r.2)
              else (some c, [.invalidSelection])

/-- Numeric-jump branch of the text path of `answer_handler` (the message
is all digits).  Only honoured in learning mode; in range it moves
`current_index` to the 0-based position and re-renders, out of range it
warns and leaves the state alone. -/
def answer_jump (bank : Bank) (n : Nat) (freshId : Nat) (s : Chat) : Chat × List Out :=
  match s with
  | none => (none, [])
  | some c =>
    if c.mode.isNone then (some c, [])
    else if !(c.mode == some .learning) then (some c, [.jumpOnlyLearning])
    else if 1 ≤ n && n ≤ bank.length then
      let c1 := purge_ui c
      send_question bank freshId { c1 with current_index := n - 1 }
    else (some c, [.jumpOutOfRange bank.length])

/-- Scoring step of the free-text path (lines 1035-1038): on a correct
answer increment `score`; an incorrect answer increments `wrong_count`
only in learning mode. -/
def score_text_answer (c : ChatData) (mode : QuizMode) (isCorrect : Bool) : ChatData :=
  if isCorrect then { c with score := c.score + 1 }
  else if mode == .learning then { c with wrong_count := c.wrong_count + 1 }
  else c

/-- Free-text answer branch of `answer_handler`.  `sel?` is the already
resolved option index (fuzzy matching of the raw text happens at the
transport boundary).  Note: on a wrong answer only learning mode
increments `wrong_count`, and there is no fail-fast check on this path. -/
def answer_text (bank : Bank) (sel? : Option Nat) (freshId : Nat)
    (s : Chat) : Chat × List Out :=
  match s with
  | none => (none, [])
  | some c =>
    if c.mode.isNone then (some c, [])
    else
      let mode := c.mode.getD .learning
      let qIdx? : Option Nat :=
        match mode with
        | .exam =>
          match c.used_questions.getLast? with
          | some q => some q
          | none =>
            match c.exam_questions with
            | none => none
            | some l => l[c.current_index]?
        | .learning => some c.current_index
      match qIdx? with
      | none => (some c, [])
      | some qIdx =>
        match bank[qIdx]? with
        | none => (some c, [])
        | some q =>
          match sel? with
          | none => (some c, [.unrecognizedAnswer])
          | some sel =>
            if sel < 4 then
              let isCorrect := sel == q.answer_index
              let c1 := score_text_answer c mode isCorrect
              let c2 := { c1 with current_index := c1.current_index + 1 }
              let maxQ := match mode with
                          | .exam => (c2.exam_questions.getD []).length
                          | .learning => bank.length
              if c2.current_index < maxQ then
                let r := send_question bank freshId c2
                (r.1, .feedback isCorrect :: r.2)
              else
                let r := send_score c2
                (r.1, .feedback isCorrect :: r.2)
            else (some c, [.unrecognizedAnswer])

/-- `next_handler` (`NEXT`/`CONTINUE`/`RESTART` callbacks).  Gated on
`awaiting_next`, which no handler in the file ever sets, so in reachable
states this is always the "Quiz not active" no-op. -/
def next_handler (bank : Bank) (d : NextData) (freshId : Nat) (s : Chat) : Chat × List Out :=
  match s with
  | none => (none, [.notActive])
  | some c =>
    if !c.awaiting_next then (some c, [.notActive])
    else
      match d with
      | .RESTART => start none
      | .CONTINUE =>
        send_question bank freshId
          { c with current_index := c.resume_question, resume_question := 0,
                   awaiting_next := false }
      | .NEXT =>
        let c1 := { c with current_index := c.current_index + 1, awaiting_next := false }
        let maxQ := match c1.mode.getD .learning with
                    | .exam => (c1.exam_questions.getD []).length
                    | .learning => bank.length
        if c1.current_index < maxQ then send_question bank freshId c1
        else send_score c1

/-- `handle_pause`: remember the cursor and mark the session paused. -/
def handle_pause (s : Chat) : Chat × List Out :=
  let c := purge_ui (s.getD {})
  (some { c with paused := true, resume_question := c.current_index }, [.pausedMsg])

/-- `handle_resume_pause`: restore the cursor saved at pause time and
re-render that question. -/
def handle_resume_pause (bank : Bank) (freshId : Nat) (s : Chat) : Chat × List Out :=
  let c := purge_ui (s.getD {})
  send_question bank freshId { c with paused := false, current_index := c.resume_question }

/-- The session state machine: dispatch of one inbound event. -/
def step (bank : Bank) (s : Chat) : Ev → Chat × List Out
  | .start => start s
  | .mainMenu => handle_main_menu s
  | .chooseLang l => handle_language l s
  | .chooseMode m rng freshId => handle_mode bank m rng freshId s
  | .btnAnswer msgId data freshId => answer_button bank msgId data freshId s
  | .textJump n freshId => answer_jump bank n freshId s
  | .textAnswer sel freshId => answer_text bank sel freshId s
  | .nextBtn d freshId => next_handler bank d freshId s
  | .pause => handle_pause s
  | .resume freshId => handle_resume_pause bank freshId s

/-- Run a sequence of events from a state, keeping only the state. -/
def run (bank : Bank) (s : Chat) : List Ev → Chat
  | [] => s
  | e :: es => run bank (step bank s e).1 es

/-- Executable check of the claimed invariant
`score + wrong_count <= cursor` (trivially true of an empty session). -/
def scoreInvOK : Chat → Bool
  | none => true
  | some c => decide (c.score + c.wrong_count ≤ c.current_index)

/-- Executable check of the exam-order invariant: whenever an exam order
is present, `used_questions` has no duplicates and never outgrows the
30-entry order. -/
def examOrderOK : Chat → Bool
  | none => true
  | some c =>
    match c.exam_questions with
    | none => true
    | some l =>
      decide (c.used_questions.length ≤ l.length) && (l.length == 30)
        && decide c.used_questions.Nodup

/-- Inductive invariant behind `examOrderOK`: any stored exam order is a
30-entry duplicate-free sample, and `used_questions` is a duplicate-free
subset of it.  Preserved by every event. -/
def Inv6 : Chat → Prop
  | none => True
  | some c => ∀ l, c.exam_questions = some l →
      l.Nodup ∧ l.length = 30 ∧ c.used_questions.Nodup ∧ c.used_questions ⊆ l

/-- Sanity properties every stored exam order enjoys (established by
`random.sample` when `handle_mode` builds it). -/
def ExamListOK (bank : Bank) (l : List Nat) : Prop :=
  l.Nodup ∧ l.length = 30 ∧ ∀ x ∈ l, x < bank.length

/-- Coherence of an in-progress exam: `used_questions` is exactly the
prefix of `exam_questions` up to and including the currently shown
question, and the cursor is in range. -/
def ExamCoupled (c : ChatData) (l : List Nat) : Prop :=
  c.current_index + 1 = c.used_questions.length ∧
  c.used_questions = l.take (c.current_index + 1) ∧
  c.current_index < 30

/-- Inductive session invariant: no pending `awaiting_next`, the score
inequality of the spec, well-formedness of any stored exam order, and, in
exam mode, coherence of `used_questions` with the cursor. -/
def Inv (bank : Bank) : Chat → Prop
  | none => True
  | some c =>
    c.awaiting_next = false ∧
    c.score + c.wrong_count ≤ c.current_index ∧
    (∀ l, c.exam_questions = some l → ExamListOK bank l) ∧
    (c.mode = some .exam → ∀ l, c.exam_questions = some l → ExamCoupled c l)

/-- Events that preserve the score inequality (the complement —
`chooseLang`, `textJump`, `resume` — can each move the cursor below the
recorded outcomes). -/
def Allowed : Ev → Prop
  | .chooseLang _ => False
  | .textJump _ _ => False
  | .resume _ => False
  | _ => True

/-- Concrete three-question bank (all answers are option A). -/
def bankCex : Bank := [⟨1, 0⟩, ⟨2, 0⟩, ⟨3, 0⟩]

/-- Reachable trace: start, choose language, learning mode, answer the
first question correctly, then jump back to question 1. -/
def evsCex : List Ev :=
  [.start, .chooseLang .en, .chooseMode .learning (fun _ => 0) 10,
   .btnAnswer 10 "A" 11, .textJump 1 12]

/-- Concrete learning-mode session used for the text-path duplicate
delivery counterexample. -/
def cTxt : ChatData :=
  { lang_mode := some .en, mode := some .learning,
    last_message_id := some 20, last_has_kb := true }

/-- Concrete 30-question bank (all answers are option A). -/
def bankBig : Bank := (List.range 30).map (fun i => ⟨i + 1, 0⟩)

/-- Concrete 20-question bank (too small for an exam). -/
def bank20 : Bank := (List.range 20).map (fun i => ⟨i + 1, 0⟩)

/-- Concrete session sitting in `AWAITING_MODE` (language chosen, no
mode yet). -/
def cAwaitMode : ChatData := { lang_mode := some .en }

/-- Concrete exam session one wrong answer away from fail-fast. -/
def cFail : ChatData :=
  { lang_mode := some .en, mode := some .exam,
    current_index := 9, score := 5, wrong_count := 5,
    used_questions := [0, 1, 2, 3, 4, 5, 6, 7, 8, 9],
    exam_questions := some (List.range 30),
    last_message_id := some 3, last_has_kb := true }

/-- Concrete learning session at cursor 5 with two recorded mistakes. -/
def cLearn5 : ChatData :=
  { lang_mode := some .en, mode := some .learning,
    current_index := 5, score := 3, wrong_count := 2,
    last_message_id := some 40, last_has_kb := true }

/-- Concrete exam session used as the C10 witness. -/
def cExamTxt : ChatData :=
  { lang_mode := some .en, mode := some .exam,
    current_index := 1, score := 1, wrong_count := 1,
    used_questions := [4, 7],
    exam_questions := some (List.range 30),
    last_message_id := some 8, last_has_kb := true }

/-- Concrete learning session used as the C10 witness (text path). -/
def cLearnTxt : ChatData :=
  { lang_mode := some .en, mode := some .learning,
    current_index := 2, score := 1, wrong_count := 1 }

/-- Concrete exam session used for the jump witnesses. -/
def cExamJump : ChatData :=
  { lang_mode := some .en, mode := some .exam, current_index := 4,
    used_questions := [2], exam_questions := some (List.range 30) }

/-- Concrete learning session used for the jump witnesses. -/
def cLearnJump : ChatData :=
  { lang_mode := some .en, mode := some .learning, current_index := 1 }

/-! ## Helper lemmas -/

@[simp]
theorem purge_ui_mode (c : ChatData) : (purge_ui c).mode = c.mode := by
  unfold purge_ui; split <;> rfl

@[simp]
theorem purge_ui_score (c : ChatData) : (purge_ui c).score = c.score := by
  unfold purge_ui; split <;> rfl

@[simp]
theorem purge_ui_wrong (c : ChatData) : (purge_ui c).wrong_count = c.wrong_count := by
  unfold purge_ui; split <;> rfl

@[simp]
theorem purge_ui_cursor (c : ChatData) : (purge_ui c).current_index = c.current_index := by
  unfold purge_ui; split <;> rfl

@[simp]
theorem purge_ui_used (c : ChatData) : (purge_ui c).used_questions = c.used_questions := by
  unfold purge_ui; split <;> rfl

@[simp]
theorem purge_ui_exam (c : ChatData) : (purge_ui c).exam_questions = c.exam_questions := by
  unfold purge_ui; split <;> rfl

@[simp]
theorem purge_ui_await (c : ChatData) : (purge_ui c).awaiting_next = c.awaiting_next := by
  unfold purge_ui; split <;> rfl

@[simp]
theorem purge_ui_lang (c : ChatData) : (purge_ui c).lang_mode = c.lang_mode := by
  unfold purge_ui; split <;> rfl

@[simp]
theorem purge_ui_paused (c : ChatData) : (purge_ui c).paused = c.paused := by
  unfold purge_ui; split <;> rfl

@[simp]
theorem purge_ui_resume (c : ChatData) : (purge_ui c).resume_question = c.resume_question := by
  unfold purge_ui; split <;> rfl

@[simp]
theorem purge_ui_steps (c : ChatData) : (purge_ui c).wrong_steps = c.wrong_steps := by
  unfold purge_ui; split <;> rfl

theorem start_reset_fields (s : Chat) :
    (start_reset s).score = 0 ∧ (start_reset s).wrong_count = 0 ∧
    (start_reset s).current_index = 0 ∧ (start_reset s).used_questions = [] ∧
    (start_reset s).exam_questions = none ∧ (start_reset s).paused = false := by
  unfold start_reset; dsimp only; split <;> simp

/-! ## C9: restart resets counters and exam state from any state -/

/-- C9: `restart()` (the `start` handler, also reached from the main-menu
button) is accepted from every session state `s`; it resets `score`,
`wrong_count` and the cursor to zero, discards `exam_questions` and
`used_questions`, and renders the language picker (the `AWAITING_LANGUAGE`
stage of the flow). -/
theorem c9_restart (bank : Bank) (s : Chat) :
    step bank s .start = (some (start_reset s), [.langPrompt]) ∧
    (start_reset s).score = 0 ∧ (start_reset s).wrong_count = 0 ∧
    (start_reset s).current_index = 0 ∧ (start_reset s).used_questions = [] ∧
    (start_reset s).exam_questions = none ∧
    step bank s .mainMenu = (some (start_reset none), [.langPrompt]) := by
  obtain ⟨h1, h2, h3, h4, h5, _⟩ := start_reset_fields s
  exact ⟨rfl, h1, h2, h3, h4, h5, rfl⟩

/-! ## C2 counterexample; C3 and C8 counterexamples -/

/-- C2 counterexample: along the fully reachable trace `evsCex`
(restart, choose language, learning mode, one correct answer, then
`jump_to(1)`), the claimed invariant `score + wrong_count <= cursor`
fails after the jump transition: the state has `score = 1` and
`cursor = 0`. -/
theorem c2_counterexample : scoreInvOK (run bankCex none evsCex) = false := by decide

/-- C3 counterexample: delivering the same free-text answer event twice
from a pending-question state is not a no-op: the duplicate is scored
against the next question, moving the cursor (and score) again. -/
theorem c3_counterexample :
    (step bankCex (step bankCex (some cTxt) (.textAnswer (some 0) 21)).1
        (.textAnswer (some 0) 21)).1 ≠
      (step bankCex (some cTxt) (.textAnswer (some 0) 21)).1 := by decide

/-- C8 counterexample: in the learning session `cLearn5` (cursor 5, two
recorded mistakes), a correct button answer does not set
`awaiting_next = true` as claimed: the handler leaves `awaiting_next`
false and advances the cursor to 6 by itself, with no `advance()`
needed. -/
theorem c8_counterexample :
    ((step bankBig (some cLearn5) (.btnAnswer 40 "A" 41)).1.map ChatData.awaiting_next)
        = some false ∧
    ((step bankBig (some cLearn5) (.btnAnswer 40 "A" 41)).1.map ChatData.current_index)
        = some 6 := by decide

/-- C4 counterexample: with the 20-question bank, `choose_quiz_mode(EXAM)`
from the `AWAITING_MODE` session `cAwaitMode` does not leave the session
untouched: `quiz_mode` is set to EXAM before the size check fails. -/
theorem c4_counterexample :
    (step bank20 (some cAwaitMode) (.chooseMode .exam (fun _ => 0) 9)).1 ≠ some cAwaitMode ∧
    ((step bank20 (some cAwaitMode) (.chooseMode .exam (fun _ => 0) 9)).1.map ChatData.mode)
        = some (some .exam) ∧
    bank20.length < 30 := by decide

/-! ## Frame lemmas for send_question / send_score -/

theorem send_score_state (c : ChatData) : (send_score c).1 = none := by
  unfold send_score; split <;> rfl

theorem send_question_frame (bank : Bank) (fid : Nat) (c c2 : ChatData)
    (h : (send_question bank fid c).1 = some c2) :
    c2.score = c.score ∧ c2.wrong_count = c.wrong_count ∧ c2.mode = c.mode ∧
    c2.exam_questions = c.exam_questions ∧ c2.awaiting_next = c.awaiting_next ∧
    c2.last_message_id = some fid ∧ c2.last_has_kb = true := by
  unfold send_question at h
  dsimp only at h
  split at h
  · split at h
    · rw [send_score_state] at h; exact absurd h (by simp)
    · split at h
      · rw [send_score_state] at h; exact absurd h (by simp)
      · rename_i i hi
        injection h with h2
        subst h2
        simp
  · split at h
    · rw [send_score_state] at h; exact absurd h (by simp)
    · injection h with h2
      subst h2
      simp

theorem send_question_learning (bank : Bank) (fid : Nat) (c : ChatData)
    (hm : c.mode.getD .learning = .learning) (hlt : c.current_index < bank.length) :
    (send_question bank fid c).1 =
      some { purge_ui c with
              last_message_id := some fid,
              last_has_kb := true,
              consumed_msg_id := none } := by
  unfold send_question
  dsimp only
  rw [show (purge_ui c).mode.getD QuizMode.learning = QuizMode.learning by
    rw [purge_ui_mode]; exact hm]
  simp only [purge_ui_cursor]
  rw [if_neg (by omega)]

/-! ## random.sample lemmas and C5 -/

theorem sampleAux_subset (rng : Nat → Nat) (k step : Nat) (pool : List Nat) :
    ∀ x ∈ sampleAux rng k step pool, x ∈ pool := by
  induction k generalizing step pool with
  | zero => intro x hx; simp [sampleAux] at hx
  | succ k ih =>
    intro x hx
    unfold sampleAux at hx
    split at hx
    · rcases List.mem_cons.mp hx with h1 | h1
      · subst h1; exact List.get_mem _ _ _
      · exact List.mem_of_mem_erase (ih _ _ _ h1)
    · simp at hx

theorem sampleAux_length (rng : Nat → Nat) (k step : Nat) (pool : List Nat) :
    (sampleAux rng k step pool).length = min k pool.length := by
  induction k generalizing step pool with
  | zero => simp [sampleAux]
  | succ k ih =>
    unfold sampleAux
    split
    · rename_i h
      simp only [List.length_cons, ih]
      have hx := List.get_mem pool (rng step % pool.length) (Nat.mod_lt _ h)
      have h2 := List.length_erase_add_one hx
      omega
    · rename_i h
      simp only [List.length_nil]
      omega

theorem sampleAux_nodup (rng : Nat → Nat) (k step : Nat) (pool : List Nat)
    (h : pool.Nodup) : (sampleAux rng k step pool).Nodup := by
  induction k generalizing step pool with
  | zero => simp [sampleAux]
  | succ k ih =>
    unfold sampleAux
    split
    · refine List.nodup_cons.mpr ⟨?_, ih _ _ (h.erase _)⟩
      intro hmem
      have hin := sampleAux_subset rng k (step+1) _ _ hmem
      rw [h.mem_erase_iff] at hin
      exact hin.1 rfl
    · simp

/-- C5: for every random source and every bank size of at least 30,
`random.sample(range(bank_size), 30)` — the exam order built by
`handle_mode` — is a sequence of exactly 30 pairwise-distinct indices,
each within `[0, bank_size)`. -/
theorem c5_exam_order (rng : Nat → Nat) (n : Nat) (h : 30 ≤ n) :
    (random_sample rng n 30).length = 30 ∧ (random_sample rng n 30).Nodup ∧
    ∀ x ∈ random_sample rng n 30, x < n := by
  refine ⟨?_, ?_, ?_⟩
  · rw [random_sample, sampleAux_length, List.length_range]
    omega
  · exact sampleAux_nodup _ _ _ _ (List.nodup_range n)
  · intro x hx
    have h2 := sampleAux_subset rng 30 0 (List.range n) x hx
    simpa [List.mem_range] using h2

/-- C5 witness: a concrete random source and the 120-question bank size
from the spec example. -/
theorem c5_witness :
    30 ≤ 120 ∧ ((random_sample (fun s => s * 7 + 3) 120 30).length = 30 ∧
      (random_sample (fun s => s * 7 + 3) 120 30).Nodup ∧
      ∀ x ∈ random_sample (fun s => s * 7 + 3) 120 30, x < 120) :=
  ⟨by decide, c5_exam_order (fun s => s * 7 + 3) 120 (by decide)⟩

/-! ## C4 amended -/

/-- C4 (amended): `choose_quiz_mode(EXAM)` with a bank smaller than the
exam size reports `InsufficientQuestions` and does not build an exam
order or start the quiz, but the session is not left untouched: before
the size check the handler has already set `quiz_mode := EXAM` and reset
`score`, `wrong_count`, the cursor and `used_questions`
(`exam_questions` alone keeps its previous value). -/
theorem c4_amended (bank : Bank) (s : Chat) (rng : Nat → Nat) (fid : Nat)
    (h : bank.length < 30) :
    (step bank s (.chooseMode .exam rng fid)).2 = [Out.insufficientQuestions] ∧
    ∃ c2, (step bank s (.chooseMode .exam rng fid)).1 = some c2 ∧
      c2.mode = some .exam ∧ c2.score = 0 ∧ c2.wrong_count = 0 ∧
      c2.current_index = 0 ∧ c2.used_questions = [] ∧
      c2.exam_questions = (s.getD {}).exam_questions := by
  simp only [step]
  unfold handle_mode
  dsimp only
  rw [if_pos h]
  refine ⟨rfl, _, rfl, ?_, ?_, ?_, ?_, ?_, ?_⟩ <;> simp

/-- C4 amended witness: the 20-question bank and the `AWAITING_MODE`
session. -/
theorem c4_amended_witness :
    bank20.length < 30 ∧
    ((step bank20 (some cAwaitMode) (.chooseMode .exam (fun _ => 0) 9)).2
        = [Out.insufficientQuestions] ∧
     ∃ c2, (step bank20 (some cAwaitMode) (.chooseMode .exam (fun _ => 0) 9)).1 = some c2 ∧
       c2.mode = some .exam ∧ c2.score = 0 ∧ c2.wrong_count = 0 ∧
       c2.current_index = 0 ∧ c2.used_questions = [] ∧
       c2.exam_questions = ((some cAwaitMode : Chat).getD {}).exam_questions) :=
  ⟨by decide, c4_amended bank20 (some cAwaitMode) (fun _ => 0) 9 (by decide)⟩

/-! ## C1: exam fail-fast at the sixth mistake -/

/-- C1: in an EXAM session with `wrong_count = 5`, a wrong button answer
(valid selection, live keyboard, question present) clears the session
immediately with the "failed" render — no `advance()` is needed and no
further question is sent. -/
theorem c1_failfast (bank : Bank) (c : ChatData) (msgId fid qi sel : Nat)
    (data : String) (q : Question)
    (hmode : c.mode = some .exam)
    (hexam : c.exam_questions.isSome = true)
    (hlastmsg : c.last_message_id = some msgId)
    (hkb : c.last_has_kb = true)
    (hcons : (c.consumed_msg_id == some msgId) = false)
    (hused : c.used_questions.getLast? = some qi)
    (hq : bank[qi]? = some q)
    (hsel : option_map data = some sel)
    (hwrong : (sel == q.answer_index) = false)
    (hcur : c.current_index < 30)
    (hwc : c.wrong_count = 5) :
    step bank (some c) (.btnAnswer msgId data fid)
      = (none, [.feedback false, .failedFast 6]) := by
  have hexam2 : c.exam_questions.isNone = false := by
    cases hx : c.exam_questions with
    | none => rw [hx] at hexam; simp at hexam
    | some l => simp [Option.isNone]
  simp only [step]
  unfold answer_button
  rw [if_neg (by simp [is_stale_callback, hlastmsg, hkb])]
  dsimp only
  rw [if_neg (by simp [hcons])]
  simp [hmode, hexam2, hused, hsel, hq, hwrong, hwc, hcur, score_answer]

/-! ## Output lemmas -/

theorem failedFast_not_send_score (c : ChatData) (k : Nat) :
    Out.failedFast k ∉ (send_score c).2 := by
  unfold send_score; split <;> simp

theorem failedFast_not_send_question (bank : Bank) (fid : Nat) (c : ChatData) (k : Nat) :
    Out.failedFast k ∉ (send_question bank fid c).2 := by
  unfold send_question
  dsimp only
  split
  · split
    · exact failedFast_not_send_score _ _
    · split
      · exact failedFast_not_send_score _ _
      · simp
  · split
    · exact failedFast_not_send_score _ _
    · simp

/-! ## C1 witness -/

/-- C1 witness: the concrete exam session `cFail` (five wrong answers
already) and a wrong "B" tap. -/
theorem c1_witness :
    cFail.wrong_count = 5 ∧
    step bankBig (some cFail) (.btnAnswer 3 "B" 99) = (none, [.feedback false, .failedFast 6]) :=
  ⟨rfl, c1_failfast bankBig cFail 3 99 9 1 "B" ⟨10, 0⟩ rfl (by decide) rfl rfl (by decide)
    (by decide) (by decide) (by decide) (by decide) (by decide) rfl⟩

/-! ## C7: numeric jump -/

/-- C7: `jump_to` (a digits-only text message) succeeds only in LEARNING
mode.  In EXAM mode it reports the mode restriction and leaves the whole
session — in particular the cursor — unchanged; in LEARNING mode with a
target outside `[1, len(bank)]` it warns and leaves the session
unchanged; otherwise it sets the cursor to the 0-based position of the
requested question. -/
theorem c7_jump_to (bank : Bank) (c : ChatData) (n fid : Nat) :
    (c.mode = some .exam →
      step bank (some c) (.textJump n fid) = (some c, [.jumpOnlyLearning])) ∧
    (c.mode = some .learning → (n = 0 ∨ bank.length < n) →
      step bank (some c) (.textJump n fid) = (some c, [.jumpOutOfRange bank.length])) ∧
    (c.mode = some .learning → 1 ≤ n → n ≤ bank.length →
      ∃ c2, (step bank (some c) (.textJump n fid)).1 = some c2 ∧
        c2.current_index = n - 1) := by
  refine ⟨?_, ?_, ?_⟩
  · intro hm
    simp only [step]
    unfold answer_jump
    simp [hm]
  · intro hm hn
    have hcond : ¬ (1 ≤ n ∧ n ≤ bank.length) := by omega
    simp only [step]
    unfold answer_jump
    simp [hm, hcond]
  · intro hm h1 h2
    have hlt : n - 1 < bank.length := by omega
    simp only [step]
    unfold answer_jump
    dsimp only
    rw [if_neg (by simp [hm])]
    rw [if_neg (by simp [hm])]
    rw [if_pos (by simp [h1, h2])]
    exact ⟨_, send_question_learning bank fid _ (by simp [hm]) (by simpa), by simp⟩

/-- C7 witness: a jump attempt in a concrete exam session, an
out-of-range jump and an in-range jump in a concrete learning session. -/
theorem c7_witness :
    (step bankBig (some cExamJump) (.textJump 7 50) = (some cExamJump, [.jumpOnlyLearning])) ∧
    (step bankBig (some cLearnJump) (.textJump 99 51)
        = (some cLearnJump, [.jumpOutOfRange bankBig.length])) ∧
    (∃ c2, (step bankBig (some cLearnJump) (.textJump 7 52)).1 = some c2 ∧
        c2.current_index = 7 - 1) :=
  ⟨(c7_jump_to bankBig cExamJump 7 50).1 rfl,
   (c7_jump_to bankBig cLearnJump 99 51).2.1 rfl (by decide),
   (c7_jump_to bankBig cLearnJump 7 52).2.2 rfl (by decide) (by decide)⟩

/-! ## C8 amended -/

/-- C8 (amended): in a LEARNING session at cursor 5 with two recorded
mistakes, a correct button answer increments `score`, leaves
`wrong_count` unchanged — but instead of parking in an
`awaiting_next = true` state, the handler advances the cursor to 6 by
itself; `awaiting_next` stays false and a following `advance()`
(`next_handler`) is the "Quiz not active" no-op that leaves the cursor at
6. -/
theorem c8_amended (bank : Bank) (c : ChatData) (msgId fid fid2 : Nat) (data : String)
    (q : Question) (d : NextData)
    (hmode : c.mode = some .learning)
    (hcur : c.current_index = 5) (hw : c.wrong_count = 2)
    (hlastmsg : c.last_message_id = some msgId) (hkb : c.last_has_kb = true)
    (hcons : (c.consumed_msg_id == some msgId) = false)
    (hq : bank[(5 : Nat)]? = some q)
    (hsel : option_map data = some q.answer_index)
    (hlen : 6 < bank.length) :
    ∃ c2, (step bank (some c) (.btnAnswer msgId data fid)).1 = some c2 ∧
      c2.score = c.score + 1 ∧ c2.wrong_count = 2 ∧ c2.current_index = 6 ∧
      c2.awaiting_next = false ∧
      (step bank (some c2) (.nextBtn d fid2)).1 = some c2 := by
  have h5 : (5:Nat) < bank.length := by omega
  have h6 : (6:Nat) < bank.length := by omega
  simp only [step]
  unfold answer_button
  rw [if_neg (by simp [is_stale_callback, hlastmsg, hkb])]
  dsimp only
  rw [if_neg (by simp [hcons])]
  simp [hmode, hcur, hw, hq, hsel, h5, h6, score_answer, finish_answer]
  rw [send_question_learning bank fid _ (by simp) (by simp [h6])]
  exact ⟨_, rfl, by simp, by simp, by simp, by simp, by simp [step, next_handler]⟩

/-- C8 witness: the concrete learning session `cLearn5` over the
30-question bank, answered correctly with "A". -/
theorem c8_witness :
    cLearn5.current_index = 5 ∧ cLearn5.wrong_count = 2 ∧
    ∃ c2, (step bankBig (some cLearn5) (.btnAnswer 40 "A" 41)).1 = some c2 ∧
      c2.score = cLearn5.score + 1 ∧ c2.wrong_count = 2 ∧ c2.current_index = 6 ∧
      c2.awaiting_next = false ∧
      (step bankBig (some c2) (.nextBtn .NEXT 42)).1 = some c2 :=
  ⟨rfl, rfl, c8_amended bankBig cLearn5 40 41 42 "A" ⟨6, 0⟩ .NEXT rfl rfl rfl rfl rfl
    (by decide) (by decide) (by decide) (by decide)⟩

/-! ## C10: text path never reaches fail-fast in exam mode -/

/-- C10: an incorrect free-text answer in EXAM mode leaves `wrong_count`
unchanged and can emit no fail-fast render, so the fail-fast threshold is
only reachable through button answers; on the same path a LEARNING
session does increment `wrong_count`. -/
theorem c10_text_frame (bank : Bank) (c cL : ChatData) (qi sel selL fid fidL : Nat)
    (q qL : Question)
    (hmode : c.mode = some .exam)
    (hlast : c.used_questions.getLast? = some qi)
    (hq : bank[qi]? = some q)
    (hsel : sel < 4) (hwrong : (sel == q.answer_index) = false)
    (hmodeL : cL.mode = some .learning)
    (hqL : bank[cL.current_index]? = some qL)
    (hselL : selL < 4) (hwrongL : (selL == qL.answer_index) = false) :
    (∀ c2, (step bank (some c) (.textAnswer (some sel) fid)).1 = some c2 →
        c2.wrong_count = c.wrong_count) ∧
    (∀ k, Out.failedFast k ∉ (step bank (some c) (.textAnswer (some sel) fid)).2) ∧
    (∀ c2, (step bank (some cL) (.textAnswer (some selL) fidL)).1 = some c2 →
        c2.wrong_count = cL.wrong_count + 1) := by
  have hred : step bank (some c) (.textAnswer (some sel) fid) =
      (let c2 := { c with current_index := c.current_index + 1 };
       let maxQ := (c2.exam_questions.getD []).length;
       if c2.current_index < maxQ then
         let r := send_question bank fid c2
         (r.1, .feedback false :: r.2)
       else
         let r := send_score c2
         (r.1, .feedback false :: r.2)) := by
    simp only [step]
    unfold answer_text
    simp [hmode, hlast, hq, hsel, hwrong, score_text_answer]
  have hredL : step bank (some cL) (.textAnswer (some selL) fidL) =
      (let c1 := { cL with wrong_count := cL.wrong_count + 1 };
       let c2 := { c1 with current_index := c1.current_index + 1 };
       if c2.current_index < bank.length then
         let r := send_question bank fidL c2
         (r.1, .feedback false :: r.2)
       else
         let r := send_score c2
         (r.1, .feedback false :: r.2)) := by
    simp only [step]
    unfold answer_text
    simp [hmodeL, hqL, hselL, hwrongL, score_text_answer]
  refine ⟨?_, ?_, ?_⟩
  · intro c2 h2
    rw [hred] at h2
    dsimp only at h2
    split at h2
    · have := send_question_frame _ _ _ _ h2
      simp at this
      simp [this.2.1]
    · rw [send_score_state] at h2; exact absurd h2 (by simp)
  · intro k
    rw [hred]
    dsimp only
    split
    · simp
      exact fun h2 => failedFast_not_send_question bank fid _ k h2
    · simp
      exact fun h2 => failedFast_not_send_score _ k h2
  · intro c2 h2
    rw [hredL] at h2
    dsimp only at h2
    split at h2
    · have := send_question_frame _ _ _ _ h2
      simp at this
      simp [this.2.1]
    · rw [send_score_state] at h2; exact absurd h2 (by simp)

/-- C10 witness: concrete exam session `cExamTxt` (last shown question 7,
wrong text answer "option 2") and concrete learning session `cLearnTxt`
(wrong text answer at cursor 2). -/
theorem c10_witness :
    (∀ c2, (step bankBig (some cExamTxt) (.textAnswer (some 1) 60)).1 = some c2 →
        c2.wrong_count = cExamTxt.wrong_count) ∧
    (∀ k, Out.failedFast k ∉ (step bankBig (some cExamTxt) (.textAnswer (some 1) 60)).2) ∧
    (∀ c2, (step bankBig (some cLearnTxt) (.textAnswer (some 1) 61)).1 = some c2 →
        c2.wrong_count = cLearnTxt.wrong_count + 1) :=
  c10_text_frame bankBig cExamTxt cLearnTxt 7 1 1 60 61 ⟨8, 0⟩ ⟨3, 0⟩ rfl (by decide)
    (by decide) (by decide) (by decide) rfl (by decide) (by decide) (by decide)

/-! ## C6: the used-questions invariant -/

theorem first_unused_spec (l used : List Nat) (start i : Nat)
    (h : first_unused l used start = some i) :
    i < l.length ∧ l.getD i 0 ∉ used := by
  unfold first_unused at h
  have h1 := List.find?_some h
  have h2 := List.mem_of_find?_eq_some h
  have h3 := List.mem_range'_1.mp h2
  refine ⟨by omega, ?_⟩
  intro hmem
  have h4 : used.contains (l.getD i 0) = true := by simpa using hmem
  rw [h4] at h1
  simp at h1

theorem hit_spec (l used : List Nat) (a b i : Nat)
    (h : (match first_unused l used a with
          | some j => some j
          | none => first_unused l used b) = some i) :
    i < l.length ∧ l.getD i 0 ∉ used := by
  rcases hfu : first_unused l used a with _ | j
  · rw [hfu] at h
    exact first_unused_spec l used b i h
  · rw [hfu] at h
    injection h with h4
    subst h4
    exact first_unused_spec l used a j hfu

theorem nodup_append_one (used : List Nat) (x : Nat) (h1 : used.Nodup) (h2 : x ∉ used) :
    (used ++ [x]).Nodup := by
  rw [List.nodup_append]
  refine ⟨h1, List.nodup_singleton x, ?_⟩
  intro a ha hb
  simp at hb
  subst hb
  exact h2 ha

theorem getD_mem (l : List Nat) (i : Nat) (h : i < l.length) : l.getD i 0 ∈ l := by
  rw [List.getD_eq_getElem l 0 h]
  exact List.getElem_mem h

theorem inv6_frame (c c2 : ChatData) (h : Inv6 (some c))
    (hu : c2.used_questions = c.used_questions)
    (he : c2.exam_questions = c.exam_questions) : Inv6 (some c2) := by
  intro l hl
  rw [hu]
  exact h l (by rw [← he]; exact hl)

theorem inv6_getD (s : Chat) (h : Inv6 s) : Inv6 (some (s.getD {})) := by
  cases s with
  | none => intro l hl; exact absurd hl (by simp)
  | some c => exact h

theorem inv6_send_question (bank : Bank) (fid : Nat) (c : ChatData)
    (h : Inv6 (some c)) : Inv6 (send_question bank fid c).1 := by
  unfold send_question
  dsimp only
  split
  · split
    · rw [send_score_state]; trivial
    · split
      · rw [send_score_state]; trivial
      · rename_i i hi
        intro l hl
        simp only [purge_ui_exam] at hl
        obtain ⟨hnd, hlen, hund, hsub⟩ := h l hl
        have hhit := hit_spec ((purge_ui c).exam_questions.getD [])
          (purge_ui c).used_questions (purge_ui c).current_index 0 i hi
        rw [purge_ui_exam, purge_ui_used, hl] at hhit
        simp only [Option.getD_some] at hhit
        simp only [purge_ui_exam, purge_ui_used, hl, Option.getD_some]
        refine ⟨hnd, hlen, nodup_append_one _ _ hund hhit.2, ?_⟩
        intro a ha
        rcases List.mem_append.mp ha with ha | ha
        · exact hsub ha
        · rw [List.mem_singleton.mp ha]
          exact getD_mem l i (by omega)
  · split
    · rw [send_score_state]; trivial
    · intro l hl
      simp only [purge_ui_exam] at hl
      obtain ⟨hnd, hlen, hund, hsub⟩ := h l hl
      simpa [hl] using ⟨hnd, hlen, hund, hsub⟩

theorem score_answer_sum (c : ChatData) (b : Bool) :
    (score_answer c b).score + (score_answer c b).wrong_count
      = c.score + c.wrong_count + 1 := by
  unfold score_answer; split <;> simp <;> omega

@[simp]
theorem score_answer_used (c : ChatData) (b : Bool) :
    (score_answer c b).used_questions = c.used_questions := by
  unfold score_answer; split <;> rfl

@[simp]
theorem score_answer_exam (c : ChatData) (b : Bool) :
    (score_answer c b).exam_questions = c.exam_questions := by
  unfold score_answer; split <;> rfl

@[simp]
theorem score_answer_mode (c : ChatData) (b : Bool) :
    (score_answer c b).mode = c.mode := by
  unfold score_answer; split <;> rfl

@[simp]
theorem score_answer_cursor (c : ChatData) (b : Bool) :
    (score_answer c b).current_index = c.current_index := by
  unfold score_answer; split <;> rfl

@[simp]
theorem score_answer_await (c : ChatData) (b : Bool) :
    (score_answer c b).awaiting_next = c.awaiting_next := by
  unfold score_answer; split <;> rfl

theorem score_answer_wrong_true (c : ChatData) :
    (score_answer c true).wrong_count = c.wrong_count := by
  unfold score_answer; simp

theorem score_answer_wrong_false (c : ChatData) :
    (score_answer c false).wrong_count = c.wrong_count + 1 := by
  unfold score_answer; simp

@[simp]
theorem finish_answer_used (c1 : ChatData) (m : Nat) (mo : QuizMode) (b : Bool) :
    (finish_answer c1 m mo b).used_questions = c1.used_questions := by
  unfold finish_answer; dsimp only; all_goals (split <;> rfl)

@[simp]
theorem finish_answer_exam (c1 : ChatData) (m : Nat) (mo : QuizMode) (b : Bool) :
    (finish_answer c1 m mo b).exam_questions = c1.exam_questions := by
  unfold finish_answer; dsimp only; all_goals (split <;> rfl)

@[simp]
theorem finish_answer_mode (c1 : ChatData) (m : Nat) (mo : QuizMode) (b : Bool) :
    (finish_answer c1 m mo b).mode = c1.mode := by
  unfold finish_answer; dsimp only; all_goals (split <;> rfl)

@[simp]
theorem finish_answer_score (c1 : ChatData) (m : Nat) (mo : QuizMode) (b : Bool) :
    (finish_answer c1 m mo b).score = c1.score := by
  unfold finish_answer; dsimp only; all_goals (split <;> rfl)

@[simp]
theorem finish_answer_wrong (c1 : ChatData) (m : Nat) (mo : QuizMode) (b : Bool) :
    (finish_answer c1 m mo b).wrong_count = c1.wrong_count := by
  unfold finish_answer; dsimp only; all_goals (split <;> rfl)

@[simp]
theorem finish_answer_cursor (c1 : ChatData) (m : Nat) (mo : QuizMode) (b : Bool) :
    (finish_answer c1 m mo b).current_index = c1.current_index + 1 := by
  unfold finish_answer; dsimp only; all_goals (split <;> rfl)

@[simp]
theorem finish_answer_await (c1 : ChatData) (m : Nat) (mo : QuizMode) (b : Bool) :
    (finish_answer c1 m mo b).awaiting_next = false := by
  unfold finish_answer; dsimp only; all_goals (split <;> rfl)

theorem score_text_answer_sum_le (c : ChatData) (m : QuizMode) (b : Bool) :
    (score_text_answer c m b).score + (score_text_answer c m b).wrong_count
      ≤ c.score + c.wrong_count + 1 := by
  unfold score_text_answer
  split
  · simp
    omega
  · split
    · simp
      omega
    · omega

@[simp]
theorem score_text_answer_used (c : ChatData) (m : QuizMode) (b : Bool) :
    (score_text_answer c m b).used_questions = c.used_questions := by
  unfold score_text_answer
  split
  · rfl
  · split <;> rfl

@[simp]
theorem score_text_answer_exam (c : ChatData) (m : QuizMode) (b : Bool) :
    (score_text_answer c m b).exam_questions = c.exam_questions := by
  unfold score_text_answer
  split
  · rfl
  · split <;> rfl

@[simp]
theorem score_text_answer_mode (c : ChatData) (m : QuizMode) (b : Bool) :
    (score_text_answer c m b).mode = c.mode := by
  unfold score_text_answer
  split
  · rfl
  · split <;> rfl

@[simp]
theorem score_text_answer_cursor (c : ChatData) (m : QuizMode) (b : Bool) :
    (score_text_answer c m b).current_index = c.current_index := by
  unfold score_text_answer
  split
  · rfl
  · split <;> rfl

@[simp]
theorem score_text_answer_await (c : ChatData) (m : QuizMode) (b : Bool) :
    (score_text_answer c m b).awaiting_next = c.awaiting_next := by
  unfold score_text_answer
  split
  · rfl
  · split <;> rfl

theorem score_text_answer_wrong_exam (c : ChatData) (b : Bool) :
    (score_text_answer c .exam b).wrong_count = c.wrong_count := by
  unfold score_text_answer
  split
  · rfl
  · simp

theorem score_text_answer_wrong_learning (c : ChatData) :
    (score_text_answer c .learning false).wrong_count = c.wrong_count + 1 := by
  unfold score_text_answer
  simp

theorem inv6_step (bank : Bank) (s : Chat) (e : Ev) (h : Inv6 s) :
    Inv6 (step bank s e).1 := by
  cases e with
  | start =>
    show Inv6 (some (start_reset s))
    intro l hl
    obtain ⟨-, -, -, -, he, -⟩ := start_reset_fields s
    rw [he] at hl
    exact absurd hl (by simp)
  | mainMenu =>
    show Inv6 (some (start_reset none))
    intro l hl
    obtain ⟨-, -, -, -, he, -⟩ := start_reset_fields none
    rw [he] at hl
    exact absurd hl (by simp)
  | chooseLang lg =>
    exact inv6_frame _ _ (inv6_getD s h) (by simp) (by simp)
  | chooseMode m rng fid =>
    show Inv6 (handle_mode bank m rng fid s).1
    unfold handle_mode
    dsimp only
    cases m with
    | learning =>
      exact inv6_send_question bank fid _
        (inv6_frame _ _ (inv6_getD s h) (by simp) (by simp))
    | exam =>
      dsimp only
      split
      · intro l hl
        have hb := inv6_getD s h l (by simpa using hl)
        exact ⟨hb.1, hb.2.1, by simp, by simp⟩
      · rename_i hge
        apply inv6_send_question
        intro l hl
        have hl2 : random_sample rng bank.length 30 = l := by simpa using hl
        subst hl2
        refine ⟨sampleAux_nodup _ _ _ _ (List.nodup_range _), ?_, by simp, by simp⟩
        rw [random_sample, sampleAux_length, List.length_range]
        omega
  | btnAnswer msgId data fid =>
    show Inv6 (answer_button bank msgId data fid s).1
    unfold answer_button
    split
    · exact h
    · cases s with
      | none => trivial
      | some c0 =>
        dsimp only
        split
        · exact h
        · repeat' split
          all_goals
            first
            | trivial
            | exact h
            | (simp only [send_score_state]; trivial)
            | (apply inv6_send_question
               exact inv6_frame c0 _ h (by simp) (by simp))
            | exact inv6_frame c0 _ h (by simp) (by simp)
  | textJump n fid =>
    show Inv6 (answer_jump bank n fid s).1
    unfold answer_jump
    cases s with
    | none => trivial
    | some c0 =>
      dsimp only
      repeat' split
      all_goals
        first
        | trivial
        | exact h
        | (simp only [send_score_state]; trivial)
        | (apply inv6_send_question
           exact inv6_frame c0 _ h (by simp) (by simp))
  | textAnswer sel fid =>
    show Inv6 (answer_text bank sel fid s).1
    unfold answer_text
    cases s with
    | none => trivial
    | some c0 =>
      dsimp only
      repeat' split
      all_goals
        first
        | trivial
        | exact h
        | (simp only [send_score_state]; trivial)
        | (apply inv6_send_question
           exact inv6_frame c0 _ h (by simp) (by simp))
        | exact inv6_frame c0 _ h (by simp) (by simp)
  | nextBtn d fid =>
    show Inv6 (next_handler bank d fid s).1
    unfold next_handler
    cases s with
    | none => trivial
    | some c0 =>
      dsimp only
      split
      · exact h
      · cases d with
        | RESTART =>
          show Inv6 (some (start_reset none))
          intro l hl
          obtain ⟨-, -, -, -, he, -⟩ := start_reset_fields none
          rw [he] at hl
          exact absurd hl (by simp)
        | CONTINUE =>
          exact inv6_send_question bank fid _ (inv6_frame c0 _ h (by simp) (by simp))
        | NEXT =>
          dsimp only
          repeat' split
          all_goals
            first
            | (simp only [send_score_state]; trivial)
            | exact inv6_send_question bank fid _
                (inv6_frame c0 _ h (by (repeat' split) <;> rfl) (by (repeat' split) <;> rfl))
  | pause =>
    exact inv6_frame _ _ (inv6_getD s h) (by simp) (by simp)
  | resume fid =>
    exact inv6_send_question bank fid _
      (inv6_frame _ _ (inv6_getD s h) (by simp) (by simp))

theorem inv6_run (bank : Bank) (s : Chat) (h : Inv6 s) (evs : List Ev) :
    Inv6 (run bank s evs) := by
  induction evs generalizing s with
  | nil => exact h
  | cons e es ih => exact ih _ (inv6_step bank s e h)

/-- C6: in every state reachable from a fresh session, whenever an exam
order is stored, `used_questions` has at most as many entries as the
30-entry `exam_questions` order and contains no duplicates — under any
interleaving of events. -/
theorem c6_used_questions (bank : Bank) (evs : List Ev) :
    examOrderOK (run bank none evs) = true := by
  have h := inv6_run bank none trivial evs
  cases hs : run bank none evs with
  | none => rfl
  | some c =>
    rw [hs] at h
    unfold examOrderOK
    dsimp only
    cases hl : c.exam_questions with
    | none => rfl
    | some l =>
      obtain ⟨hnd, hlen, hund, hsub⟩ := h l hl
      have hle : c.used_questions.length ≤ l.length :=
        (List.subperm_of_subset hund hsub).length_le
      simp [hle, hlen, hund]
      omega

/-! ## Support lemmas for the C2 invariant -/

theorem take_succ_getD (l : List Nat) (i : Nat) (h : i < l.length) :
    l.take (i+1) = l.take i ++ [l.getD i 0] := by
  rw [List.take_succ]
  congr 1
  rw [List.getD_eq_getElem l 0 h, List.getElem?_eq_getElem h]
  rfl

theorem getD_not_mem_take (l : List Nat) (i : Nat) (hi : i < l.length) (hnd : l.Nodup) :
    l.getD i 0 ∉ l.take i := by
  rw [List.getD_eq_getElem l 0 hi]
  intro hmem
  rw [List.mem_iff_get] at hmem
  obtain ⟨⟨j, hj⟩, hget⟩ := hmem
  have hj2 : j < l.length := by
    have := hj; simp [List.length_take] at this; omega
  have hji : j < i := by have := hj; simp [List.length_take] at this; omega
  simp only [List.get_eq_getElem, List.getElem_take] at hget
  have : j = i := (List.Nodup.getElem_inj_iff hnd).mp hget
  omega

theorem first_unused_at (l used : List Nat) (i : Nat) (hi : i < l.length)
    (hnot : l.getD i 0 ∉ used) :
    first_unused l used i = some i := by
  unfold first_unused
  have hsplit : l.length - i = (l.length - i - 1) + 1 := by omega
  rw [hsplit, List.range'_succ]
  have hnot2 : l[i]?.getD 0 ∉ used := by simpa [List.getD] using hnot
  have hp : (!(used.contains (l.getD i 0))) = true := by simp [hnot2]
  rw [List.find?_cons]
  rw [hp]

theorem remaining_nonempty (l used : List Nat) (i : Nat) (hi : i < l.length)
    (hnot : l.getD i 0 ∉ used) :
    (l.filter (fun q => !(used.contains q))).isEmpty = false := by
  have hnot2 : l[i]?.getD 0 ∉ used := by simpa [List.getD] using hnot
  have hx : l.getD i 0 ∈ l.filter (fun q => !(used.contains q)) := by
    rw [List.mem_filter]
    exact ⟨getD_mem l i hi, by simp [hnot2]⟩
  cases hc : (l.filter (fun q => !(used.contains q))).isEmpty with
  | false => rfl
  | true =>
    rw [List.isEmpty_iff] at hc
    rw [hc] at hx
    exact absurd hx (by simp)

theorem examlist_ge (bank : Bank) (l : List Nat) (h : ExamListOK bank l) :
    30 ≤ bank.length := by
  obtain ⟨hnd, hlen, hmem⟩ := h
  have hsub : l ⊆ List.range bank.length := by
    intro x hx
    exact List.mem_range.mpr (hmem x hx)
  have := (List.subperm_of_subset hnd hsub).length_le
  rw [List.length_range] at this
  omega

theorem start_reset_await (s : Chat) :
    (start_reset s).awaiting_next = (s.getD {}).awaiting_next := by
  unfold start_reset; dsimp only; split <;> rfl

theorem inv_empty (bank : Bank) : Inv bank (some {}) := by
  refine ⟨rfl, by decide, fun l hl => absurd hl (by simp), fun hm l hl => absurd hl (by simp)⟩

theorem inv_getD (bank : Bank) (s : Chat) (h : Inv bank s) : Inv bank (some (s.getD {})) := by
  cases s with
  | none => exact inv_empty bank
  | some c => exact h

theorem inv_frame (bank : Bank) (c c2 : ChatData) (h : Inv bank (some c))
    (hu : c2.used_questions = c.used_questions)
    (he : c2.exam_questions = c.exam_questions)
    (hmo : c2.mode = c.mode)
    (hsc : c2.score = c.score) (hwc : c2.wrong_count = c.wrong_count)
    (hcu : c2.current_index = c.current_index)
    (haw : c2.awaiting_next = c.awaiting_next) : Inv bank (some c2) := by
  obtain ⟨h1, h2, h3, h4⟩ := h
  refine ⟨by rw [haw]; exact h1, by rw [hsc, hwc, hcu]; exact h2,
          fun l hl => h3 l (by rw [← he]; exact hl), fun hm l hl => ?_⟩
  have h5 := h4 (by rw [← hmo]; exact hm) l (by rw [← he]; exact hl)
  exact ⟨by rw [hcu, hu]; exact h5.1, by rw [hu, hcu]; exact h5.2.1,
         by rw [hcu]; exact h5.2.2⟩

theorem inv_send_question (bank : Bank) (fid : Nat) (c : ChatData)
    (haw : c.awaiting_next = false)
    (hsw : c.score + c.wrong_count ≤ c.current_index)
    (hlists : ∀ l, c.exam_questions = some l → ExamListOK bank l)
    (hpre : c.mode = some .exam → ∀ l, c.exam_questions = some l →
        c.used_questions = l.take c.current_index ∧ c.current_index < 30) :
    Inv bank (send_question bank fid c).1 := by
  unfold send_question
  dsimp only
  cases hm : (purge_ui c).mode.getD .learning with
  | learning =>
    simp only [hm]
    split
    · rw [send_score_state]; trivial
    · refine ⟨by simpa using haw, by simpa using hsw,
              fun l hl => hlists l (by simpa using hl), fun hmo l hl => ?_⟩
      exfalso
      have h2 : c.mode = some .exam := by simpa using hmo
      rw [purge_ui_mode, h2] at hm
      simp at hm
  | exam =>
    have hcm : c.mode = some .exam := by
      rw [purge_ui_mode] at hm
      cases hmo : c.mode with
      | none => rw [hmo] at hm; exact absurd hm (by simp)
      | some m =>
        rw [hmo] at hm
        simp only [Option.getD_some] at hm
        rw [hm]
    simp only [hm]
    cases hex : c.exam_questions with
    | none =>
      simp only [purge_ui_exam, hex, Option.getD_none, List.filter_nil, List.isEmpty_nil]
      rw [if_pos trivial]
      rw [send_score_state]
      trivial
    | some l =>
      obtain ⟨hnd, hlen, hmem⟩ := hlists l hex
      obtain ⟨hused, hcur⟩ := hpre hcm l hex
      have hcl : c.current_index < l.length := by omega
      have hnotmem : l.getD c.current_index 0 ∉ l.take c.current_index :=
        getD_not_mem_take l c.current_index hcl hnd
      have hfu : first_unused l (l.take c.current_index) c.current_index
          = some c.current_index := first_unused_at l _ c.current_index hcl hnotmem
      have hne := remaining_nonempty l (l.take c.current_index) c.current_index hcl hnotmem
      simp only [purge_ui_exam, purge_ui_used, purge_ui_cursor, hex, Option.getD_some, hused]
      rw [hne]
      rw [if_neg (by simp)]
      rw [hfu]
      dsimp only
      refine ⟨by simpa using haw, by simpa using hsw,
              fun l2 hl2 => hlists l2 (by
                rw [hex]
                exact congrArg some (by simpa using hl2)), fun hmo l2 hl2 => ?_⟩
      have hl2c : l2 = l := by
        have h3 : some l = some l2 := by simpa using hl2
        injection h3 with h4
        exact h4.symm
      subst hl2c
      have htk : l2.take (c.current_index + 1)
          = l2.take c.current_index ++ [l2.getD c.current_index 0] :=
        take_succ_getD l2 c.current_index hcl
      refine ⟨?_, ?_, ?_⟩
      · simp [htk, List.length_take]
        omega
      · simp [htk]
      · simpa using hcur

theorem inv_step (bank : Bank) (s : Chat) (e : Ev) (hA : Allowed e) (h : Inv bank s) :
    Inv bank (step bank s e).1 := by
  cases e with
  | chooseLang lg => exact False.elim hA
  | textJump n fid => exact False.elim hA
  | resume fid => exact False.elim hA
  | start =>
    show Inv bank (some (start_reset s))
    obtain ⟨hsc, hwc2, hcur, hus, hex, hpa⟩ := start_reset_fields s
    refine ⟨?_, ?_, ?_, ?_⟩
    · rw [start_reset_await s]
      exact (inv_getD bank s h).1
    · rw [hsc, hwc2, hcur]
    · intro l hl
      rw [hex] at hl
      exact absurd hl (by simp)
    · intro hm l hl
      rw [hex] at hl
      exact absurd hl (by simp)
  | mainMenu =>
    show Inv bank (some (start_reset none))
    obtain ⟨hsc, hwc2, hcur, hus, hex, hpa⟩ := start_reset_fields none
    refine ⟨?_, ?_, ?_, ?_⟩
    · rw [start_reset_await none]
      exact (inv_empty bank).1
    · rw [hsc, hwc2, hcur]
    · intro l hl
      rw [hex] at hl
      exact absurd hl (by simp)
    · intro hm l hl
      rw [hex] at hl
      exact absurd hl (by simp)
  | chooseMode m rng fid =>
    show Inv bank (handle_mode bank m rng fid s).1
    unfold handle_mode
    dsimp only
    cases m with
    | learning =>
      dsimp only
      apply inv_send_question
      · simpa using (inv_getD bank s h).1
      · simp
      · intro l hl
        exact (inv_getD bank s h).2.2.1 l (by simpa using hl)
      · intro hmo l hl
        exfalso
        simp at hmo
    | exam =>
      dsimp only
      split
      · rename_i hlt
        refine ⟨?_, ?_, ?_, ?_⟩
        · simpa using (inv_getD bank s h).1
        · simp
        · intro l hl
          exact (inv_getD bank s h).2.2.1 l (by simpa using hl)
        · intro hmo l hl
          exfalso
          have hok := (inv_getD bank s h).2.2.1 l (by simpa using hl)
          have := examlist_ge bank l hok
          omega
      · rename_i hge
        apply inv_send_question
        · simpa using (inv_getD bank s h).1
        · simp
        · intro l hl
          have hl2 : random_sample rng bank.length 30 = l := by simpa using hl
          rw [← hl2]
          refine ⟨sampleAux_nodup _ _ _ _ (List.nodup_range _), ?_, ?_⟩
          · rw [random_sample, sampleAux_length, List.length_range]
            omega
          · intro x hx
            have h4 := sampleAux_subset _ _ _ _ x hx
            simpa [List.mem_range] using h4
        · intro hmo l hl
          constructor
          · simp
          · simp
  | btnAnswer msgId data fid =>
    show Inv bank (answer_button bank msgId data fid s).1
    unfold answer_button
    split
    · exact h
    · cases s with
      | none => trivial
      | some c0 =>
        dsimp only
        split
        · exact h
        · have h2 := h
          obtain ⟨haw0, hsw0, hlists0, hcoup0⟩ := h2
          repeat' split
          all_goals
            first
            | trivial
            | exact h
            | (simp only [send_score_state]; trivial)
            | exact inv_frame bank c0 _ h (by simp) (by simp) (by simp) (by simp) (by simp)
                (by simp) (by simp)
            | (rename_i hguard
               apply inv_send_question
               · simp
               · simp [score_answer_sum]
                 omega
               · intro l hl
                 exact hlists0 l (by simpa using hl)
               · intro hmo l hl
                 have hm0 : c0.mode = some .exam := by simpa using hmo
                 have hl0 : c0.exam_questions = some l := by simpa using hl
                 obtain ⟨hc1, hc2, hc3⟩ := hcoup0 hm0 l hl0
                 have hlen : l.length = 30 := (hlists0 l hl0).2.1
                 have hg : c0.current_index + 1 < 30 := by
                   simpa [hm0, hl0, hlen] using hguard
                 constructor
                 · simp
                   exact hc2
                 · simp
                   omega)
  | textAnswer sel fid =>
    show Inv bank (answer_text bank sel fid s).1
    unfold answer_text
    cases s with
    | none => trivial
    | some c0 =>
      dsimp only
      have h2 := h
      obtain ⟨haw0, hsw0, hlists0, hcoup0⟩ := h2
      repeat' split
      all_goals
        first
        | trivial
        | exact h
        | (simp only [send_score_state]; trivial)
        | exact inv_frame bank c0 _ h (by simp) (by simp) (by simp) (by simp) (by simp)
            (by simp) (by simp)
        | (rename_i hguard
           apply inv_send_question
           · simp [haw0]
           · simp
             exact le_trans (score_text_answer_sum_le c0 _ _) (by omega)
           · intro l hl
             exact hlists0 l (by simpa using hl)
           · intro hmo l hl
             have hm0 : c0.mode = some .exam := by simpa using hmo
             have hl0 : c0.exam_questions = some l := by simpa using hl
             obtain ⟨hc1, hc2, hc3⟩ := hcoup0 hm0 l hl0
             have hlen : l.length = 30 := (hlists0 l hl0).2.1
             have hg : c0.current_index + 1 < 30 := by
               simpa [hm0, hl0, hlen] using hguard
             constructor
             · simp
               exact hc2
             · simp
               omega)
  | nextBtn d fid =>
    show Inv bank (next_handler bank d fid s).1
    unfold next_handler
    cases s with
    | none => trivial
    | some c0 =>
      dsimp only
      split
      · exact h
      · rename_i hcond
        obtain ⟨haw0, -, -, -⟩ := h
        rw [haw0] at hcond
        simp at hcond
  | pause =>
    exact inv_frame bank (s.getD {}) _ (inv_getD bank s h) (by simp) (by simp) (by simp)
      (by simp) (by simp) (by simp) (by simp)

theorem inv_scoreInvOK (bank : Bank) (s : Chat) (h : Inv bank s) :
    scoreInvOK s = true := by
  cases s with
  | none => rfl
  | some c => simpa [scoreInvOK] using h.2.1

/-- C2 (amended): the invariant `score + wrong_count <= cursor` holds
after every transition other than `jump_to`, `choose_language` and
`resume` — each of which can move the cursor below the recorded outcomes
(see the counterexample) — provided the session satisfies the session
coherence invariant `Inv`, which all those transitions preserve and which
every fresh session satisfies. -/
theorem c2_amended (bank : Bank) (s : Chat) (e : Ev) (hA : Allowed e) (h : Inv bank s) :
    Inv bank (step bank s e).1 ∧ scoreInvOK (step bank s e).1 = true := by
  have h2 := inv_step bank s e hA h
  exact ⟨h2, inv_scoreInvOK bank _ h2⟩

/-- C2 witness: the `restart` transition applied to a fresh session. -/
theorem c2_witness :
    Allowed Ev.start ∧ Inv [] none ∧
    (Inv [] (step [] none .start).1 ∧ scoreInvOK (step [] none .start).1 = true) :=
  ⟨by trivial, by trivial, c2_amended [] none .start (by trivial) (by trivial)⟩

/-! ## C3: duplicate delivery of a button answer -/

theorem not_stale_fields (c : ChatData) (msgId : Nat)
    (h : is_stale_callback (some c) msgId = false) :
    c.last_message_id = some msgId ∧ c.last_has_kb = true := by
  unfold is_stale_callback at h
  simp at h
  exact ⟨h.1, h.2⟩

theorem answer_button_stale (bank : Bank) (msgId : Nat) (data : String) (fid : Nat)
    (s : Chat) (h : is_stale_callback s msgId = true) :
    (answer_button bank msgId data fid s).1 = s := by
  unfold answer_button
  rw [if_pos h]

theorem answer_button_consumed (bank : Bank) (msgId : Nat) (data : String) (fid : Nat)
    (c : ChatData) (hst : is_stale_callback (some c) msgId = false)
    (hcons : (c.consumed_msg_id == some msgId) = true) :
    (answer_button bank msgId data fid (some c)).1 = some c := by
  unfold answer_button
  rw [if_neg (by simp [hst])]
  dsimp only
  rw [if_pos hcons]

theorem send_question_post (bank : Bank) (fid : Nat) (c : ChatData) :
    (send_question bank fid c).1 = none ∨
    ∃ c2, (send_question bank fid c).1 = some c2 ∧ c2.last_message_id = some fid := by
  cases hsq : (send_question bank fid c).1 with
  | none => exact Or.inl rfl
  | some c2 =>
    exact Or.inr ⟨c2, rfl, (send_question_frame bank fid c c2 hsq).2.2.2.2.2.1⟩

/-- C3 (amended): on the button-callback path, delivering the same answer
callback twice in a row yields the same session state as delivering it
once: the duplicate is dropped by the stale-keyboard guard or by the
`_consumed_msg_id` marker.  (The hypothesis `fid ≠ msgId` records that
the transport never reuses the answered message id for the next
question.)  The free-text path has no such marker — see the
counterexample. -/
theorem c3_button_idem (bank : Bank) (s : Chat) (msgId : Nat) (data : String) (fid : Nat)
    (hfid : fid ≠ msgId) :
    (step bank (step bank s (.btnAnswer msgId data fid)).1 (.btnAnswer msgId data fid)).1
      = (step bank s (.btnAnswer msgId data fid)).1 := by
  show (answer_button bank msgId data fid (answer_button bank msgId data fid s).1).1
      = (answer_button bank msgId data fid s).1
  cases hst : is_stale_callback s msgId with
  | true =>
    rw [answer_button_stale bank msgId data fid s hst]
    exact answer_button_stale bank msgId data fid s hst
  | false =>
    cases s with
    | none => simp [is_stale_callback] at hst
    | some c0 =>
      obtain ⟨hlast, hkb⟩ := not_stale_fields c0 msgId hst
      cases hcons : (c0.consumed_msg_id == some msgId) with
      | true =>
        rw [answer_button_consumed bank msgId data fid c0 hst hcons]
        exact answer_button_consumed bank msgId data fid c0 hst hcons
      | false =>
        have hchar : (answer_button bank msgId data fid (some c0)).1 = none ∨
            (∃ c2, (answer_button bank msgId data fid (some c0)).1 = some c2 ∧
              ((c2.consumed_msg_id = some msgId ∧ c2.last_message_id = some msgId ∧
                c2.last_has_kb = true) ∨ c2.last_message_id = some fid)) := by
          unfold answer_button
          rw [if_neg (by simp [hst])]
          dsimp only
          rw [if_neg (by simp [hcons])]
          repeat' split
          all_goals
            first
            | exact Or.inl (send_score_state _)
            | exact Or.inl rfl
            | exact Or.inr ⟨_, rfl, Or.inl ⟨by simp, by simp [hlast], by simp [hkb]⟩⟩
            | exact (send_question_post bank fid _).imp (fun h3 => h3)
                (fun h3 => match h3 with | ⟨c2, h4, h5⟩ => ⟨c2, h4, Or.inr h5⟩)
        rcases hchar with h1 | ⟨c2, h1, h2⟩
        · rw [h1]
          exact answer_button_stale bank msgId data fid none rfl
        · rw [h1]
          rcases h2 with ⟨hc2a, hc2b, hc2c⟩ | hc2
          · exact answer_button_consumed bank msgId data fid c2
              (by simp [is_stale_callback, hc2b, hc2c]) (by simp [hc2a])
          · exact answer_button_stale bank msgId data fid (some c2)
              (by simp [is_stale_callback, hc2, hfid])
        
/-- C3 witness: double delivery of a concrete correct button answer in
the learning session `cTxt`. -/
theorem c3_witness :
    (21 : Nat) ≠ 20 ∧
    (step bankCex (step bankCex (some cTxt) (.btnAnswer 20 "A" 21)).1
        (.btnAnswer 20 "A" 21)).1
      = (step bankCex (some cTxt) (.btnAnswer 20 "A" 21)).1 :=
  ⟨by decide, c3_button_idem bankCex (some cTxt) 20 "A" 21 (by decide)⟩

end QuizBot
